import Mathlib

/-!
Shallow embedding of the `rainbow` buffer-provenance codec and corruption
summarizer (files `two_color.cc` / `two_color.h`, `spraypaint.cc` /
`spraypaint.h`).

Bytes are modelled as `Nat` (all color values produced by the code are
< 256).  `size_t` values are modelled as `Nat`; no subtraction in the
translated code can underflow (checked against the loop bounds in the
source).  Buffers (`const uint8_t *buffer, size_t length`) are modelled
as `List Nat`, indexed with `List.getD`.
-/

namespace TwoColor

/-- `TwoColor::kPeriod`. -/
def kPeriod : Nat := 7

/-- `TwoColor::kLowPrime`. -/
def kLowPrime : Nat := 29

/-- `TwoColor::kHighPrime`. -/
def kHighPrime : Nat := 31

/-- `TwoColor::kLowTag`. -/
def kLowTag : Nat := 0x80

/-- `TwoColor::kHighTag`. -/
def kHighTag : Nat := 0x40

/-- `TwoColor::Tag`: `color & 0xe0`. -/
def Tag (color : Nat) : Nat := color &&& 0xe0

/-- `TwoColor::Residue`: `color & 0x1f`. -/
def Residue (color : Nat) : Nat := color &&& 0x1f

/-- `TwoColor::LowColor`: `kLowTag | (identity % kLowPrime)`. -/
def LowColor (identity : Nat) : Nat := kLowTag ||| (identity % kLowPrime)

/-- `TwoColor::HighColor`: `kHighTag | (identity % kHighPrime)`. -/
def HighColor (identity : Nat) : Nat := kHighTag ||| (identity % kHighPrime)

/-- `TwoColor::IsValidLowColor`. -/
def IsValidLowColor (c : Nat) : Bool :=
  if Tag c ≠ kLowTag then false
  else if kLowPrime ≤ Residue c then false
  else true

/-- `TwoColor::IsValidHighColor`. -/
def IsValidHighColor (c : Nat) : Bool :=
  if Tag c ≠ kHighTag then false
  else if kHighPrime ≤ Residue c then false
  else true

/-- `TwoColor::ColorSelector`: `((buffer_id + position) % kPeriod) < (kPeriod / 2) ? 0 : 1`. -/
def ColorSelector (buffer_id position : Nat) : Nat :=
  if (buffer_id + position) % kPeriod < kPeriod / 2 then 0 else 1

/-- `TwoColor::Color`: `ColorSelector(buffer_id, position) ? HighColor(identity) : LowColor(identity)`. -/
def Color (identity buffer_id position : Nat) : Nat :=
  if ColorSelector buffer_id position ≠ 0 then HighColor identity
  else LowColor identity

/-- `TwoColor::Paint` writes `Color(identity, buffer_id, k)` at every `k < length`;
    the painted buffer is returned as a list. -/
def Paint (identity buffer_id length : Nat) : List Nat :=
  (List.range length).map (fun k => Color identity buffer_id k)

/-- Inner loop of `TwoColor::ColorMatch`, carrying the current index `k`. -/
def ColorMatchFrom (identity phase : Nat) : Nat → List Nat → Nat
  | k, [] => k
  | k, c :: rest =>
      if c = Color identity phase k then ColorMatchFrom identity phase (k + 1) rest
      else k

/-- `TwoColor::ColorMatch`: index of the first byte differing from
    `Color(identity, phase, ·)`, or the length if all match. -/
def ColorMatch (identity phase : Nat) (buffer : List Nat) : Nat :=
  ColorMatchFrom identity phase 0 buffer

/-- `TwoColor::Crt`: linear search for the first `k` in `[1, kLowPrime*kHighPrime)`
    whose two colors match; `0` if none does (`// Must be zero`). -/
def Crt (c_low c_high : Nat) : Nat :=
  ((List.range' 1 (kLowPrime * kHighPrime - 1)).find?
      (fun k => LowColor k == c_low && HighColor k == c_high)).getD 0

/-- `TwoColor::CandidateColors`. -/
structure CandidateColors where
  identity : Nat
  phase : Nat
deriving DecidableEq, Repr

/-- `TwoColor::Candidates`: finds the first color transition within the first
    `min length kPeriod` bytes and derives the candidate identity and phase. -/
def Candidates (buffer : List Nat) : Option CandidateColors :=
  if buffer.length < 2 then none
  else
    let c_0 := buffer.getD 0 0
    match (List.range' 1 (min buffer.length kPeriod - 1)).find?
        (fun k => buffer.getD k 0 != c_0) with
    | none => none
    | some k =>
        let c_1 := buffer.getD k 0
        let valid_low_0 := IsValidLowColor c_0
        let valid_low_1 := IsValidLowColor c_1
        let valid_high_0 := IsValidHighColor c_0
        let valid_high_1 := IsValidHighColor c_1
        let low_0_high_1 := valid_low_0 && valid_high_1
        let low_1_high_0 := valid_low_1 && valid_high_0
        if !(low_0_high_1 || low_1_high_0) then none
        else if low_0_high_1 then
          some ⟨Crt c_0 c_1, (kPeriod + kPeriod / 2 - k) % kPeriod⟩
        else
          some ⟨Crt c_1 c_0, kPeriod - k⟩

/-- `TwoColor::Identity` (decode result record). -/
structure Identity where
  identity : Nat
  length : Nat
  phase : Nat
deriving DecidableEq, Repr

/-- `TwoColor::Identify`. -/
def Identify (buffer : List Nat) : Option Identity :=
  match Candidates buffer with
  | none => none
  | some c =>
      let len := ColorMatch c.identity c.phase buffer
      if len ≤ kPeriod then none
      else some ⟨c.identity, len, c.phase⟩

/-! ### Arithmetic facts about the color byte format -/

/-- For residues below 32, or-ing with the low tag `0x80` is addition. -/
lemma lor_kLowTag : ∀ r < 32, kLowTag ||| r = 128 + r := by decide

/-- For residues below 32, or-ing with the high tag `0x40` is addition. -/
lemma lor_kHighTag : ∀ r < 32, kHighTag ||| r = 64 + r := by decide

/-- Tag and residue extraction on low-tagged bytes. -/
lemma tag_residue_low : ∀ r < 32, Tag (128 + r) = kLowTag ∧ Residue (128 + r) = r := by decide

/-- Tag and residue extraction on high-tagged bytes. -/
lemma tag_residue_high : ∀ r < 32, Tag (64 + r) = kHighTag ∧ Residue (64 + r) = r := by decide

lemma lowColor_eq (identity : Nat) : LowColor identity = 128 + identity % 29 := by
  have h : identity % 29 < 32 := by
    have := Nat.mod_lt identity (show 0 < 29 by norm_num)
    omega
  simpa [LowColor, kLowPrime] using lor_kLowTag _ h

lemma highColor_eq (identity : Nat) : HighColor identity = 64 + identity % 31 := by
  have h : identity % 31 < 32 := by
    have := Nat.mod_lt identity (show 0 < 31 by norm_num)
    omega
  simpa [HighColor, kHighPrime] using lor_kHighTag _ h

lemma lowColor_mod (identity : Nat) : LowColor identity = LowColor (identity % 29) := by
  rw [lowColor_eq, lowColor_eq]
  omega

lemma highColor_mod (identity : Nat) : HighColor identity = HighColor (identity % 31) := by
  rw [highColor_eq, highColor_eq]
  omega

lemma lowColor_inj {a b : Nat} (h : LowColor a = LowColor b) : a % 29 = b % 29 := by
  rw [lowColor_eq, lowColor_eq] at h
  omega

lemma highColor_inj {a b : Nat} (h : HighColor a = HighColor b) : a % 31 = b % 31 := by
  rw [highColor_eq, highColor_eq] at h
  omega

lemma lowColor_ne_highColor (a b : Nat) : LowColor a ≠ HighColor b := by
  rw [lowColor_eq, highColor_eq]
  have := Nat.mod_lt b (show 0 < 31 by norm_num)
  omega

lemma isValidLow_lowColor (identity : Nat) : IsValidLowColor (LowColor identity) = true := by
  have h : identity % 29 < 32 := by
    have := Nat.mod_lt identity (show 0 < 29 by norm_num)
    omega
  obtain ⟨ht, hr⟩ := tag_residue_low _ h
  rw [IsValidLowColor, lowColor_eq, ht, hr]
  have := Nat.mod_lt identity (show 0 < 29 by norm_num)
  simp [kLowPrime]
  omega

lemma isValidHigh_highColor (identity : Nat) : IsValidHighColor (HighColor identity) = true := by
  have h : identity % 31 < 32 := by
    have := Nat.mod_lt identity (show 0 < 31 by norm_num)
    omega
  obtain ⟨ht, hr⟩ := tag_residue_high _ h
  rw [IsValidHighColor, highColor_eq, ht, hr]
  have := Nat.mod_lt identity (show 0 < 31 by norm_num)
  simp [kHighPrime]
  omega

lemma isValidHigh_lowColor (identity : Nat) : IsValidHighColor (LowColor identity) = false := by
  have h : identity % 29 < 32 := by
    have := Nat.mod_lt identity (show 0 < 29 by norm_num)
    omega
  obtain ⟨ht, _⟩ := tag_residue_low _ h
  rw [IsValidHighColor, lowColor_eq, ht]
  simp [kLowTag, kHighTag]

lemma isValidLow_highColor (identity : Nat) : IsValidLowColor (HighColor identity) = false := by
  have h : identity % 31 < 32 := by
    have := Nat.mod_lt identity (show 0 < 31 by norm_num)
    omega
  obtain ⟨ht, _⟩ := tag_residue_high _ h
  rw [IsValidLowColor, highColor_eq, ht]
  simp [kLowTag, kHighTag]

/-- A valid color (of either tag) is never equal to a byte that is garbage
    under both validity tests. -/
lemma color_ne_garbage {identity buffer_id position g : Nat}
    (hl : IsValidLowColor g = false) (hh : IsValidHighColor g = false) :
    Color identity buffer_id position ≠ g := by
  intro h
  rw [Color] at h
  by_cases hs : ColorSelector buffer_id position ≠ 0
  · rw [if_pos hs] at h
    rw [← h, isValidHigh_highColor] at hh
    simp at hh
  · rw [if_neg hs] at h
    rw [← h, isValidLow_lowColor] at hl
    simp at hl

/-! ### The Chinese-Remainder search -/

/-- Core round trip of the brute-force CRT search: for every identity below
    `899 = 29 * 31`, the search recovers the identity from its two colors,
    with the fall-through `return 0` handling identity `0`. -/
lemma crt_lowColor_highColor {identity : Nat} (h : identity < 899) :
    Crt (LowColor identity) (HighColor identity) = identity := by
  have hrange : kLowPrime * kHighPrime - 1 = 898 := by norm_num [kLowPrime, kHighPrime]
  rcases Nat.eq_zero_or_pos identity with h0 | hpos
  · subst h0
    have hnone : (List.range' 1 (kLowPrime * kHighPrime - 1)).find?
        (fun k => LowColor k == LowColor 0 && HighColor k == HighColor 0) = none := by
      rw [List.find?_eq_none]
      intro x hx hpx
      rw [hrange] at hx
      obtain ⟨hx1, hx2⟩ := List.mem_range'_1.mp hx
      simp only [Bool.and_eq_true, beq_iff_eq] at hpx
      have h29 : x % 29 = 0 := by simpa using lowColor_inj hpx.1
      have h31 : x % 31 = 0 := by simpa using highColor_inj hpx.2
      have hdvd : 29 * 31 ∣ x :=
        (show Nat.Coprime 29 31 by decide).mul_dvd_of_dvd_of_dvd
          (Nat.dvd_of_mod_eq_zero h29) (Nat.dvd_of_mod_eq_zero h31)
      have := Nat.le_of_dvd (by omega) hdvd
      omega
    rw [Crt, hnone]
    rfl
  · set p : Nat → Bool :=
      fun k => LowColor k == LowColor identity && HighColor k == HighColor identity with hp
    have hmem : identity ∈ List.range' 1 (kLowPrime * kHighPrime - 1) := by
      rw [hrange]
      exact List.mem_range'_1.mpr ⟨hpos, by omega⟩
    have hpid : p identity = true := by simp [hp]
    have hsome : ((List.range' 1 (kLowPrime * kHighPrime - 1)).find? p).isSome = true :=
      List.find?_isSome.mpr ⟨identity, hmem, hpid⟩
    obtain ⟨j, hj⟩ := Option.isSome_iff_exists.mp hsome
    have hpj := List.find?_some hj
    have hjmem := List.mem_of_find?_eq_some hj
    rw [hrange] at hjmem
    obtain ⟨hj1, hj2⟩ := List.mem_range'_1.mp hjmem
    simp only [hp, Bool.and_eq_true, beq_iff_eq] at hpj
    have h29 : j % 29 = identity % 29 := lowColor_inj hpj.1
    have h31 : j % 31 = identity % 31 := highColor_inj hpj.2
    have hmod : j ≡ identity [MOD 29 * 31] :=
      (Nat.modEq_and_modEq_iff_modEq_mul (by decide)).mp ⟨h29, h31⟩
    have hj_eq : j = identity := by
      have hmm : j % (29 * 31) = identity % (29 * 31) := hmod
      rw [Nat.mod_eq_of_lt (by omega), Nat.mod_eq_of_lt (by omega)] at hmm
      exact hmm
    rw [Crt, hj, hj_eq]
    rfl

/-! ### The painted pattern -/

lemma paint_length (identity buffer_id length : Nat) :
    (Paint identity buffer_id length).length = length := by
  simp [Paint]

lemma paint_getD {identity buffer_id length k : Nat} (h : k < length) :
    (Paint identity buffer_id length).getD k 0 = Color identity buffer_id k := by
  rw [Paint, List.getD_eq_getElem?_getD, List.getElem?_map, List.getElem?_range h]
  rfl

lemma color_eq_low {identity buffer_id position : Nat}
    (h : (buffer_id + position) % 7 < 3) :
    Color identity buffer_id position = LowColor identity := by
  simp [Color, ColorSelector, kPeriod, h]

lemma color_eq_high {identity buffer_id position : Nat}
    (h : ¬ (buffer_id + position) % 7 < 3) :
    Color identity buffer_id position = HighColor identity := by
  simp [Color, ColorSelector, kPeriod, h]

lemma color_mod7 (identity buffer_id position : Nat) :
    Color identity buffer_id position = Color identity (buffer_id % 7) position := by
  simp only [Color, ColorSelector, kPeriod, Nat.mod_add_mod]

lemma paint_mod7 (identity buffer_id length : Nat) :
    Paint identity buffer_id length = Paint identity (buffer_id % 7) length := by
  rw [Paint, Paint]
  simp only [color_mod7 identity buffer_id]

/-- `find?` on a contiguous range returns the first index satisfying
    the predicate. -/
lemma find?_range'_first {p : Nat → Bool} {a n k : Nat} (h1 : a ≤ k) (h2 : k < a + n)
    (hk : p k = true) (hlt : ∀ j, a ≤ j → j < k → p j = false) :
    (List.range' a n).find? p = some k := by
  induction n generalizing a with
  | zero => omega
  | succ n ih =>
    rw [List.range'_succ]
    rcases Nat.eq_or_lt_of_le h1 with rfl | hlt2
    · rw [List.find?_cons_of_pos _ hk]
    · rw [List.find?_cons_of_neg _ (by simp [hlt a le_rfl hlt2])]
      exact ih (by omega) (by omega) (fun j hj1 hj2 => hlt j (by omega) hj2)

/-- On a freshly painted buffer longer than one period, `Candidates` recovers
    the painting identity and the buffer id (already reduced mod 7). -/
lemma candidates_paint (identity buffer_id length : Nat) (hid : identity < 899)
    (hbid : buffer_id < 7) (hlen : 7 < length) :
    Candidates (Paint identity buffer_id length) = some ⟨identity, buffer_id⟩ := by
  have hBlen : (Paint identity buffer_id length).length = length := paint_length ..
  have hget : ∀ k, k < length →
      (Paint identity buffer_id length).getD k 0 = Color identity buffer_id k :=
    fun k hk => paint_getD hk
  have hmin : min (Paint identity buffer_id length).length kPeriod - 1 = 6 := by
    rw [hBlen]
    simp [kPeriod]
    omega
  by_cases hcase : buffer_id < 3
  · -- The pattern starts Low; the first transition (to High) is at 3 - buffer_id.
    have hc0 : (Paint identity buffer_id length).getD 0 0 = LowColor identity := by
      rw [hget 0 (by omega), color_eq_low (by omega)]
    have hck0 : (Paint identity buffer_id length).getD (3 - buffer_id) 0 = HighColor identity := by
      rw [hget _ (by omega), color_eq_high (by omega)]
    have hfind : (List.range' 1 (min (Paint identity buffer_id length).length kPeriod - 1)).find?
        (fun k => (Paint identity buffer_id length).getD k 0 !=
          (Paint identity buffer_id length).getD 0 0) = some (3 - buffer_id) := by
      rw [hmin]
      apply find?_range'_first (a := 1) (by omega) (by omega)
      · simp only [hck0, hc0, bne_iff_ne, ne_eq]
        exact fun hcontra => lowColor_ne_highColor identity identity hcontra.symm
      · intro j hj1 hj2
        have hj : (Paint identity buffer_id length).getD j 0 = LowColor identity := by
          rw [hget j (by omega), color_eq_low (by omega)]
        simp only [hj, hc0, bne_self_eq_false]
    simp only [Candidates]
    rw [if_neg (by omega), hfind]
    simp only [hc0, hck0, isValidLow_lowColor, isValidHigh_highColor,
      isValidHigh_lowColor, isValidLow_highColor, Bool.and_true, Bool.and_false,
      Bool.true_or, Bool.or_false, Bool.not_true, Bool.false_eq_true, if_false,
      if_true, crt_lowColor_highColor hid]
    have : (kPeriod + kPeriod / 2 - (3 - buffer_id)) % kPeriod = buffer_id := by
      simp only [kPeriod]
      omega
    rw [this]
  · -- The pattern starts High; the first transition (to Low) is at 7 - buffer_id.
    have hc0 : (Paint identity buffer_id length).getD 0 0 = HighColor identity := by
      rw [hget 0 (by omega), color_eq_high (by omega)]
    have hck0 : (Paint identity buffer_id length).getD (7 - buffer_id) 0 = LowColor identity := by
      rw [hget _ (by omega), color_eq_low (by omega)]
    have hfind : (List.range' 1 (min (Paint identity buffer_id length).length kPeriod - 1)).find?
        (fun k => (Paint identity buffer_id length).getD k 0 !=
          (Paint identity buffer_id length).getD 0 0) = some (7 - buffer_id) := by
      rw [hmin]
      apply find?_range'_first (a := 1) (by omega) (by omega)
      · simp only [hck0, hc0, bne_iff_ne, ne_eq]
        exact lowColor_ne_highColor identity identity
      · intro j hj1 hj2
        have hj : (Paint identity buffer_id length).getD j 0 = HighColor identity := by
          rw [hget j (by omega), color_eq_high (by omega)]
        simp only [hj, hc0, bne_self_eq_false]
    simp only [Candidates]
    rw [if_neg (by omega), hfind]
    simp only [hc0, hck0, isValidLow_lowColor, isValidHigh_highColor,
      isValidHigh_lowColor, isValidLow_highColor, Bool.and_true, Bool.and_false,
      Bool.false_or, Bool.or_false, Bool.not_true, Bool.false_eq_true, if_false,
      if_true, crt_lowColor_highColor hid]
    have : kPeriod - (7 - buffer_id) = buffer_id := by
      simp only [kPeriod]
      omega
    rw [this]

/-! ### `ColorMatch` -/

lemma colorMatchFrom_all {identity phase : Nat} :
    ∀ (l : List Nat) (k : Nat),
      (∀ j, j < l.length → l.getD j 0 = Color identity phase (k + j)) →
      ColorMatchFrom identity phase k l = k + l.length := by
  intro l
  induction l with
  | nil => intro k _; simp [ColorMatchFrom]
  | cons c rest ih =>
    intro k h
    have hc : c = Color identity phase k := by simpa using h 0 (by simp)
    have hrest : ∀ j, j < rest.length → rest.getD j 0 = Color identity phase (k + 1 + j) := by
      intro j hj
      have h' := h (j + 1) (by simp only [List.length_cons]; omega)
      simp only [List.getD_cons_succ] at h'
      rw [h']
      congr 1
      omega
    rw [ColorMatchFrom, if_pos hc, ih (k + 1) hrest]
    simp only [List.length_cons]
    omega

lemma colorMatchFrom_first {identity phase : Nat} :
    ∀ (l : List Nat) (k j : Nat), j < l.length →
      (∀ i, i < j → l.getD i 0 = Color identity phase (k + i)) →
      l.getD j 0 ≠ Color identity phase (k + j) →
      ColorMatchFrom identity phase k l = k + j := by
  intro l
  induction l with
  | nil => intro k j hj; simp at hj
  | cons c rest ih =>
    intro k j hj hpref hne
    match j with
    | 0 =>
        rw [ColorMatchFrom, if_neg (by simpa using hne)]
        omega
    | j' + 1 =>
        have hc : c = Color identity phase k := by simpa using hpref 0 (by omega)
        rw [ColorMatchFrom, if_pos hc]
        have hpref' : ∀ i, i < j' → rest.getD i 0 = Color identity phase (k + 1 + i) := by
          intro i hi
          have h' := hpref (i + 1) (by omega)
          simp only [List.getD_cons_succ] at h'
          rw [h']
          congr 1
          omega
        have hne' : rest.getD j' 0 ≠ Color identity phase (k + 1 + j') := by
          simp only [List.getD_cons_succ] at hne
          intro hcontra
          apply hne
          rw [hcontra]
          congr 1
          omega
        rw [ih (k + 1) j' (by simpa using hj) hpref' hne']
        omega

lemma colorMatch_paint (identity phase length : Nat) :
    ColorMatch identity phase (Paint identity phase length) = length := by
  rw [ColorMatch, colorMatchFrom_all (Paint identity phase length) 0
    (fun j hj => by
      rw [paint_getD (by simpa [paint_length] using hj)]
      simp)]
  simp [paint_length]

lemma lowColor_mod899 (identity : Nat) : LowColor (identity % 899) = LowColor identity := by
  rw [lowColor_eq, lowColor_eq, Nat.mod_mod_of_dvd _ (show (29:Nat) ∣ 899 by norm_num)]

lemma highColor_mod899 (identity : Nat) : HighColor (identity % 899) = HighColor identity := by
  rw [highColor_eq, highColor_eq, Nat.mod_mod_of_dvd _ (show (31:Nat) ∣ 899 by norm_num)]

/-! ### Claim theorems about the codec -/

/-- C2: For every identity in `[0, 899)`, the Chinese-Remainder search applied
    to that identity's pair of encoded colors recovers exactly that identity:
    `Crt (LowColor id) (HighColor id) = id`, including at `id = 0`. -/
theorem crt_identity_roundtrip (identity : Nat) (h : identity < 899) :
    Crt (LowColor identity) (HighColor identity) = identity :=
  crt_lowColor_highColor h

theorem crt_identity_roundtrip_witness :
    (0 < 899 ∧ Crt (LowColor 0) (HighColor 0) = 0) ∧
    (437 < 899 ∧ Crt (LowColor 437) (HighColor 437) = 437) :=
  ⟨⟨by norm_num, crt_identity_roundtrip 0 (by norm_num)⟩,
   ⟨by norm_num, crt_identity_roundtrip 437 (by norm_num)⟩⟩

/-- C1: For every identity in `[0, 899)`, every `buffer_id`, and every buffer
    of length > 7: `Identify` after `Paint` returns the painted identity,
    phase `buffer_id % 7`, and matched length equal to the buffer length. -/
theorem paint_identify_roundtrip (identity buffer_id length : Nat)
    (hid : identity < 899) (hlen : 7 < length) :
    Identify (Paint identity buffer_id length) =
      some ⟨identity, length, buffer_id % 7⟩ := by
  rw [paint_mod7]
  have hbid7 : buffer_id % 7 < 7 := Nat.mod_lt _ (by norm_num)
  rw [Identify, candidates_paint identity (buffer_id % 7) length hid hbid7 hlen]
  simp only [colorMatch_paint, kPeriod]
  rw [if_neg (by omega)]

theorem paint_identify_roundtrip_witness :
    5 < 899 ∧ 7 < 10 ∧ Identify (Paint 5 9 10) = some ⟨5, 10, 2⟩ :=
  ⟨by norm_num, by norm_num, paint_identify_roundtrip 5 9 10 (by norm_num) (by norm_num)⟩

/-- C10: The expected color depends on its arguments only modulo the scheme's
    periods: `Color id bid pos = Color (id % 899) (bid % 7) pos`, and shifting
    `bid` by 7 leaves the pattern unchanged. -/
theorem color_aliasing (identity buffer_id position : Nat) :
    Color identity buffer_id position = Color (identity % 899) (buffer_id % 7) position ∧
    Color identity (buffer_id + 7) position = Color identity buffer_id position := by
  constructor
  · rw [color_mod7, Color, Color, lowColor_mod899, highColor_mod899]
  · simp only [Color, ColorSelector, kPeriod,
      show (buffer_id + 7 + position) % 7 = (buffer_id + position) % 7 by omega]

/-- C8: `ColorMatch` on a fully painted buffer returns the buffer length, and
    if the byte at position `p` is replaced by a garbage color, `ColorMatch`
    from the start returns exactly `p`. -/
theorem colorMatch_prefix_law :
    (∀ identity buffer_id length,
      ColorMatch identity buffer_id (Paint identity buffer_id length) = length) ∧
    (∀ identity buffer_id length p g, p < length →
      IsValidLowColor g = false → IsValidHighColor g = false →
      ColorMatch identity buffer_id ((Paint identity buffer_id length).set p g) = p) := by
  constructor
  · exact fun identity buffer_id length => colorMatch_paint ..
  · intro identity buffer_id length p g hp hl hh
    rw [ColorMatch]
    have h1 : p < ((Paint identity buffer_id length).set p g).length := by
      rw [List.length_set, paint_length]
      exact hp
    have h2 : ∀ i, i < p →
        ((Paint identity buffer_id length).set p g).getD i 0 = Color identity buffer_id (0 + i) := by
      intro i hi
      rw [List.getD_eq_getElem?_getD, List.getElem?_set_ne (show p ≠ i by omega),
        ← List.getD_eq_getElem?_getD, paint_getD (by omega)]
      simp
    have h3 : ((Paint identity buffer_id length).set p g).getD p 0 ≠
        Color identity buffer_id (0 + p) := by
      rw [List.getD_eq_getElem?_getD,
        List.getElem?_set_self (by rw [paint_length]; omega)]
      simp only [Option.getD_some]
      exact (color_ne_garbage hl hh).symm
    simpa using colorMatchFrom_first _ 0 p h1 h2 h3

theorem colorMatch_prefix_law_witness :
    ColorMatch 3 1 (Paint 3 1 12) = 12 ∧
    (4 < 12 ∧ IsValidLowColor 7 = false ∧ IsValidHighColor 7 = false ∧
      ColorMatch 3 1 ((Paint 3 1 12).set 4 7) = 4) :=
  ⟨colorMatch_prefix_law.1 3 1 12,
   ⟨by norm_num, by decide, by decide,
    colorMatch_prefix_law.2 3 1 12 4 7 (by norm_num) (by decide) (by decide)⟩⟩

/-- C7: `Identify` returns `none` (never a fatal error) for buffers shorter
    than 2 bytes, constant buffers of any length, a first transition that is
    not exactly one valid Low-tagged and one valid High-tagged color, and a
    resolved matched length ≤ 7. -/
theorem identify_absence :
    (∀ buffer : List Nat, buffer.length < 2 → Identify buffer = none) ∧
    (∀ v n : Nat, Identify (List.replicate n v) = none) ∧
    (∀ (buffer : List Nat) (k : Nat), 1 ≤ k → k < min buffer.length kPeriod →
      (∀ j, 1 ≤ j → j < k → buffer.getD j 0 = buffer.getD 0 0) →
      buffer.getD k 0 ≠ buffer.getD 0 0 →
      ¬(IsValidLowColor (buffer.getD 0 0) = true ∧ IsValidHighColor (buffer.getD k 0) = true) →
      ¬(IsValidLowColor (buffer.getD k 0) = true ∧ IsValidHighColor (buffer.getD 0 0) = true) →
      Identify buffer = none) ∧
    (∀ (buffer : List Nat) (c : CandidateColors), Candidates buffer = some c →
      ColorMatch c.identity c.phase buffer ≤ kPeriod → Identify buffer = none) := by
  refine ⟨?_, ?_, ?_, ?_⟩
  · intro buffer h
    have hc : Candidates buffer = none := by rw [Candidates, if_pos h]
    rw [Identify, hc]
  · intro v n
    by_cases h2 : (List.replicate n v).length < 2
    · have hc : Candidates (List.replicate n v) = none := by rw [Candidates, if_pos h2]
      rw [Identify, hc]
    · have hn : 2 ≤ n := by simpa using Nat.le_of_not_lt h2
      have hfind : (List.range' 1 (min (List.replicate n v).length kPeriod - 1)).find?
          (fun k => (List.replicate n v).getD k 0 != (List.replicate n v).getD 0 0) = none := by
        rw [List.find?_eq_none]
        intro x hx
        obtain ⟨hx1, hx2⟩ := List.mem_range'_1.mp hx
        have hxn : x < n := by
          simp only [List.length_replicate, kPeriod] at hx2
          omega
        have hgx : (List.replicate n v).getD x 0 = v := by
          rw [List.getD_eq_getElem?_getD, List.getElem?_replicate, if_pos hxn]
          rfl
        have hg0 : (List.replicate n v).getD 0 0 = v := by
          rw [List.getD_eq_getElem?_getD, List.getElem?_replicate, if_pos (by omega)]
          rfl
        simp only [hgx, hg0, bne_self_eq_false]
        exact Bool.false_ne_true
      have hc : Candidates (List.replicate n v) = none := by
        simp only [Candidates]
        rw [if_neg h2, hfind]
      rw [Identify, hc]
  · intro buffer k hk1 hk2 hpref hne hv1 hv2
    have hlen2 : ¬ buffer.length < 2 := by
      simp only [kPeriod] at hk2
      omega
    have hfind : (List.range' 1 (min buffer.length kPeriod - 1)).find?
        (fun k => buffer.getD k 0 != buffer.getD 0 0) = some k := by
      apply find?_range'_first (a := 1) hk1 (by simp only [kPeriod] at hk2 ⊢; omega)
      · simpa using hne
      · intro j hj1 hj2
        simpa using hpref j hj1 hj2
    have hlow01 : (IsValidLowColor (buffer.getD 0 0) && IsValidHighColor (buffer.getD k 0)) = false := by
      cases hA : IsValidLowColor (buffer.getD 0 0) <;>
        cases hB : IsValidHighColor (buffer.getD k 0) <;> simp_all
    have hlow10 : (IsValidLowColor (buffer.getD k 0) && IsValidHighColor (buffer.getD 0 0)) = false := by
      cases hA : IsValidLowColor (buffer.getD k 0) <;>
        cases hB : IsValidHighColor (buffer.getD 0 0) <;> simp_all
    have hc : Candidates buffer = none := by
      simp only [Candidates]
      rw [if_neg hlen2, hfind]
      simp only [hlow01, hlow10, Bool.or_self, Bool.not_false, if_true]
    rw [Identify, hc]
  · intro buffer c hc hm
    rw [Identify, hc]
    simp only []
    rw [if_pos hm]

set_option maxRecDepth 40000 in
set_option maxHeartbeats 1000000 in
theorem identify_absence_witness :
    Identify [5] = none ∧
    Identify (List.replicate 10 128) = none ∧
    Identify [128, 129, 130] = none ∧
    Identify [129, 129, 129, 65, 0, 0, 0, 0] = none :=
  ⟨identify_absence.1 [5] (by decide),
   identify_absence.2.1 128 10,
   identify_absence.2.2.1 [128, 129, 130] 1 (by norm_num) (by decide)
     (fun j hj1 hj2 => absurd (lt_of_le_of_lt hj1 hj2) (by norm_num))
     (by decide) (by decide) (by decide),
   identify_absence.2.2.2 [129, 129, 129, 65, 0, 0, 0, 0] ⟨1, 0⟩ (by decide) (by decide)⟩

set_option maxRecDepth 40000 in
set_option maxHeartbeats 1000000 in
/-- C5 counterexample: given the residue pair `(159, 64)` — for which no owner
    in `[0, 899)` matches — the Chinese-Remainder search does not assert or
    panic; it silently returns the sentinel value `0` to the caller. -/
theorem crt_silent_sentinel_cex :
    (∀ k, k < 899 → ¬(LowColor k = 159 ∧ HighColor k = 64)) ∧ Crt 159 64 = 0 := by
  constructor
  · decide
  · decide

/-- C5 (amended): when the Chinese-Remainder search is given a residue pair
    for which no owner in `[1, 899)` matches, it silently returns `0` — a
    sentinel indistinguishable from the root identity — rather than
    asserting or panicking. -/
theorem crt_no_owner_silent_zero (c_low c_high : Nat)
    (h : ∀ k, 1 ≤ k → k < 899 → ¬(LowColor k = c_low ∧ HighColor k = c_high)) :
    Crt c_low c_high = 0 := by
  have hnone : (List.range' 1 (kLowPrime * kHighPrime - 1)).find?
      (fun k => LowColor k == c_low && HighColor k == c_high) = none := by
    rw [List.find?_eq_none]
    intro x hx hpx
    have hr : kLowPrime * kHighPrime - 1 = 898 := by norm_num [kLowPrime, kHighPrime]
    rw [hr] at hx
    obtain ⟨h1, h2⟩ := List.mem_range'_1.mp hx
    simp only [Bool.and_eq_true, beq_iff_eq] at hpx
    exact h x h1 (by omega) hpx
  rw [Crt, hnone]
  rfl

set_option maxRecDepth 40000 in
set_option maxHeartbeats 1000000 in
theorem crt_no_owner_silent_zero_witness :
    (∀ k, 1 ≤ k → k < 899 → ¬(LowColor k = 159 ∧ HighColor k = 96)) ∧ Crt 159 96 = 0 :=
  ⟨by decide, crt_no_owner_silent_zero 159 96 (by decide)⟩

end TwoColor

/-!
### The corruption summarizer (`Summarizer` in `spraypaint.h` / `spraypaint.cc`)

State fields mirror the C++ members (`active_`, `range_count_`,
`range_start_`, `range_end_`, `range_fails_`, `total_fails_`,
`histogram_[256]`); the uninitialized `range_start_` / `range_end_` are
modelled as `0` (they are written before first use, guarded by `active_`).
The two `SAFELOG(ERROR)` emissions are modelled as ghost trace fields:
`detailLog` records each emitted per-event detail as `(position, color)`,
and `summaryLog` records each emitted range summary as the tuple
`(range_count_, range_start_, range_end_, range_fails_)` at emission time.
The text of the log lines (including the `Summary()` call into
`TwoColor::Identify`) is not modelled; only the fact and data of each
emission are.
-/

namespace Summarizer

/-- `Summarizer::kSpewLimit`. -/
def kSpewLimit : Nat := 600

/-- The `Summarizer` state. -/
structure State where
  active : Bool
  range_count : Nat
  range_start : Nat
  range_end : Nat
  range_fails : Nat
  total_fails : Nat
  histogram : Nat → Nat
  detailLog : List (Nat × Nat)
  summaryLog : List (Nat × Nat × Nat × Nat)

/-- The state after the constructor (member initializers plus `Clear()`). -/
def init : State :=
  { active := false
    range_count := 0
    range_start := 0
    range_end := 0
    range_fails := 0
    total_fails := 0
    histogram := fun _ => 0
    detailLog := []
    summaryLog := [] }

/-- `Summarizer::IsSquelched`: `total_fails_ >= kSpewLimit`. -/
def IsSquelched (s : State) : Bool := kSpewLimit ≤ s.total_fails

/-- `Summarizer::Report`, translated statement by statement. -/
def Report (s : State) (position color : Nat) : State :=
  let s1 : State := { s with total_fails := s.total_fails + 1 }
  let s2 : State :=
    if IsSquelched s1 then s1
    else
      let s' : State :=
        if s1.active ∧ position ≠ s1.range_end + 1 then
          { s1 with
            summaryLog :=
              (s1.range_count, s1.range_start, s1.range_end, s1.range_fails) :: s1.summaryLog,
            range_count := s1.range_count + 1,
            histogram := fun _ => 0,
            range_fails := 0,
            range_start := position }
        else s1
      { s' with detailLog := (position, color) :: s'.detailLog }
  let s3 : State :=
    if s2.active then s2
    else { s2 with range_count := 1, range_start := position, active := true }
  { s3 with
    range_end := position,
    range_fails := s3.range_fails + 1,
    histogram := fun b => if b = color then s3.histogram b + 1 else s3.histogram b }

/-- `Summarizer::Finish`: emits the active range's summary (a `const` method —
    only the ghost emission trace changes). -/
def Finish (s : State) : State :=
  if s.active then
    { s with summaryLog :=
        (s.range_count, s.range_start, s.range_end, s.range_fails) :: s.summaryLog }
  else s

/-! #### Field-level behaviour of `Report` -/

lemma report_total (s : State) (position color : Nat) :
    (Report s position color).total_fails = s.total_fails + 1 := by
  simp only [Report]
  split_ifs <;> rfl

lemma report_adjacent (s : State) (position color : Nat)
    (ha : s.active = true) (hp : position = s.range_end + 1) :
    (Report s position color).range_count = s.range_count ∧
    (Report s position color).range_start = s.range_start ∧
    (Report s position color).range_end = position ∧
    (Report s position color).range_fails = s.range_fails + 1 ∧
    (Report s position color).active = true ∧
    (Report s position color).summaryLog = s.summaryLog := by
  simp only [Report]
  split_ifs <;> simp_all

lemma report_inactive (s : State) (position color : Nat) (ha : s.active = false) :
    (Report s position color).range_count = 1 ∧
    (Report s position color).range_start = position ∧
    (Report s position color).range_end = position ∧
    (Report s position color).range_fails = s.range_fails + 1 ∧
    (Report s position color).active = true ∧
    (Report s position color).summaryLog = s.summaryLog := by
  simp only [Report]
  split_ifs <;> simp_all

lemma report_squelched (s : State) (position color : Nat)
    (h : kSpewLimit ≤ s.total_fails + 1) :
    (Report s position color).range_count = (if s.active then s.range_count else 1) ∧
    (Report s position color).range_start = (if s.active then s.range_start else position) ∧
    (Report s position color).range_end = position ∧
    (Report s position color).range_fails = s.range_fails + 1 ∧
    (Report s position color).summaryLog = s.summaryLog ∧
    (Report s position color).detailLog = s.detailLog ∧
    (Report s position color).histogram color = s.histogram color + 1 := by
  simp only [Report]
  split_ifs <;> simp_all [IsSquelched, kSpewLimit]

lemma report_active_fresh (s : State) (position color : Nat)
    (ha : s.active = true) (hsq : s.total_fails + 1 < kSpewLimit)
    (hp : position ≠ s.range_end + 1) :
    (Report s position color).summaryLog =
      (s.range_count, s.range_start, s.range_end, s.range_fails) :: s.summaryLog ∧
    (Report s position color).range_count = s.range_count + 1 ∧
    (Report s position color).range_start = position ∧
    (Report s position color).range_end = position ∧
    (Report s position color).range_fails = 1 ∧
    (Report s position color).active = true ∧
    (Report s position color).histogram = (fun b => if b = color then 1 else 0) ∧
    (Report s position color).detailLog = (position, color) :: s.detailLog := by
  simp only [Report]
  split_ifs <;> simp_all [IsSquelched, kSpewLimit]
  omega

/-- The tracker state after `n` reports at the adjacent positions
    `0, 1, ..., n-1` (all with observed color `7`), starting from a fresh
    tracker. -/
def adjReports (n : Nat) : State :=
  (List.range n).foldl (fun s k => Report s k 7) init

lemma adjReports_succ (n : Nat) : adjReports (n + 1) = Report (adjReports n) n 7 := by
  rw [adjReports, adjReports, List.range_succ, List.foldl_append]
  simp

lemma adjReports_fields (n : Nat) :
    (adjReports n).total_fails = n ∧
    (0 < n → (adjReports n).active = true ∧ (adjReports n).range_count = 1 ∧
      (adjReports n).range_start = 0 ∧ (adjReports n).range_end = n - 1 ∧
      (adjReports n).range_fails = n) := by
  induction n with
  | zero =>
      constructor
      · rfl
      · intro h
        omega
  | succ n ih =>
      rw [adjReports_succ]
      rcases Nat.eq_zero_or_pos n with rfl | hpos
      · have hinact : (adjReports 0).active = false := rfl
        have hri := report_inactive (adjReports 0) 0 7 hinact
        refine ⟨by rw [report_total, ih.1], fun _ => ⟨hri.2.2.2.2.1, hri.1, hri.2.1, hri.2.2.1, ?_⟩⟩
        rw [hri.2.2.2.1]
        rfl
      · have hih := ih.2 hpos
        have hadj := report_adjacent (adjReports n) n 7 hih.1 (by rw [hih.2.2.2.1]; omega)
        refine ⟨by rw [report_total, ih.1], fun _ => ⟨hadj.2.2.2.2.1, ?_, ?_, ?_, ?_⟩⟩
        · rw [hadj.1, hih.2.1]
        · rw [hadj.2.1, hih.2.2.1]
        · rw [hadj.2.2.1]
          omega
        · rw [hadj.2.2.2.1, hih.2.2.2.2]

/-- C3 counterexample: a reachable tracker that is Active but has accumulated
    `kSpewLimit` failures (600 adjacent reports at positions 0..599).  The next
    report, at the non-adjacent position 1000, does not finalize the current
    range, does not clear the per-range fail count, and does not start a new
    range at 1000 — refuting "regardless of how many failures have
    accumulated". -/
theorem nonadjacent_after_squelch_cex :
    (adjReports 600).active = true ∧
    (1000 : Nat) ≠ (adjReports 600).range_end + 1 ∧
    (Report (adjReports 600) 1000 7).range_start ≠ 1000 ∧
    (Report (adjReports 600) 1000 7).range_count = (adjReports 600).range_count ∧
    (Report (adjReports 600) 1000 7).range_fails = 601 ∧
    (Report (adjReports 600) 1000 7).summaryLog = (adjReports 600).summaryLog := by
  have hf := adjReports_fields 600
  have h2 := hf.2 (by norm_num)
  have hsq := report_squelched (adjReports 600) 1000 7
    (by rw [hf.1]; norm_num [kSpewLimit])
  refine ⟨h2.1, by rw [h2.2.2.2.1]; norm_num, ?_, ?_, ?_, hsq.2.2.2.2.1⟩
  · rw [hsq.2.1, if_pos h2.1, h2.2.2.1]
    norm_num
  · rw [hsq.1, if_pos h2.1]
  · rw [hsq.2.2.2.1, h2.2.2.2.2]

/-- C3 (amended): for every tracker in the Active state that is not yet
    squelched (the incremented lifetime total is still below `kSpewLimit`), a
    `Report` at a position not equal to `range_end_ + 1` emits the current
    range's summary, clears the per-range histogram and fail count, and starts
    a new Active range at the reported position.  Once squelched, a
    non-adjacent report merely extends the current range (see the
    counterexample). -/
theorem nonadjacent_starts_new_range (s : State) (position color : Nat)
    (ha : s.active = true) (hsq : s.total_fails + 1 < kSpewLimit)
    (hp : position ≠ s.range_end + 1) :
    (Report s position color).summaryLog =
      (s.range_count, s.range_start, s.range_end, s.range_fails) :: s.summaryLog ∧
    (Report s position color).range_count = s.range_count + 1 ∧
    (Report s position color).range_start = position ∧
    (Report s position color).range_end = position ∧
    (Report s position color).range_fails = 1 ∧
    (Report s position color).active = true ∧
    (Report s position color).histogram = (fun b => if b = color then 1 else 0) := by
  have h := report_active_fresh s position color ha hsq hp
  exact ⟨h.1, h.2.1, h.2.2.1, h.2.2.2.1, h.2.2.2.2.1, h.2.2.2.2.2.1, h.2.2.2.2.2.2.1⟩

theorem nonadjacent_starts_new_range_witness :
    (Report init 0 7).active = true ∧
    (Report init 0 7).total_fails + 1 < kSpewLimit ∧
    (5 : Nat) ≠ (Report init 0 7).range_end + 1 ∧
    (Report (Report init 0 7) 5 3).range_count = (Report init 0 7).range_count + 1 ∧
    (Report (Report init 0 7) 5 3).range_start = 5 ∧
    (Report (Report init 0 7) 5 3).range_fails = 1 :=
  have h := nonadjacent_starts_new_range (Report init 0 7) 5 3 (by decide)
    (by decide) (by decide)
  ⟨by decide, by decide, by decide, h.2.1, h.2.2.1, h.2.2.2.2.1⟩

/-- C4: every `Report` increments the lifetime total-fail counter (it is never
    reset), and once the lifetime total has reached the squelch threshold, the
    per-event detail text is not emitted for that report (or any later one,
    since the counter only grows) while the counter still increments and the
    observed color is still recorded in the histogram. -/
theorem squelch_law :
    (∀ (s : State) (position color : Nat),
      (Report s position color).total_fails = s.total_fails + 1) ∧
    (∀ (s : State) (position color : Nat), kSpewLimit ≤ s.total_fails + 1 →
      (Report s position color).detailLog = s.detailLog ∧
      (Report s position color).histogram color = s.histogram color + 1 ∧
      (Report s position color).total_fails = s.total_fails + 1) :=
  ⟨report_total, fun s position color h =>
    ⟨(report_squelched s position color h).2.2.2.2.2.1,
     (report_squelched s position color h).2.2.2.2.2.2,
     report_total s position color⟩⟩

/-- A concrete squelched tracker state for the C4 witness. -/
def squelchedState : State :=
  { active := true
    range_count := 1
    range_start := 0
    range_end := 599
    range_fails := 600
    total_fails := 600
    histogram := fun _ => 0
    detailLog := []
    summaryLog := [] }

theorem squelch_law_witness :
    kSpewLimit ≤ squelchedState.total_fails + 1 ∧
    (Report squelchedState 1000 3).detailLog = squelchedState.detailLog ∧
    (Report squelchedState 1000 3).histogram 3 = squelchedState.histogram 3 + 1 ∧
    (Report squelchedState 1000 3).total_fails = squelchedState.total_fails + 1 :=
  have h := squelch_law.2 squelchedState 1000 3 (by decide)
  ⟨by decide, h.1, h.2.1, h.2.2⟩

lemma finish_total (s : State) : (Finish s).total_fails = s.total_fails := by
  rw [Finish]
  split <;> rfl

lemma finish_active (s : State) (h : s.active = true) :
    (Finish s).summaryLog =
      (s.range_count, s.range_start, s.range_end, s.range_fails) :: s.summaryLog ∧
    (Finish s).range_count = s.range_count ∧
    (Finish s).range_start = s.range_start ∧
    (Finish s).range_end = s.range_end ∧
    (Finish s).range_fails = s.range_fails := by
  rw [Finish, if_pos h]
  simp

end Summarizer

/-!
### The verifier scan (`SprayPaint::ColorIsRight` in `spraypaint.cc`)
-/

namespace SprayPaint

open Summarizer

/-- One iteration of the `ColorIsRight` loop body. -/
def scanStep (last_painted_by buffer_id : Nat) (buffer : List Nat)
    (acc : Bool × Summarizer.State) (k : Nat) : Bool × Summarizer.State :=
  let color := buffer.getD k 0
  if color ≠ TwoColor.Color last_painted_by buffer_id k then
    (false, Summarizer.Report acc.2 k color)
  else acc

/-- `SprayPaint::ColorIsRight(buffer_id, buffer, buffer_size, ident)`:
    scans every position, reporting each mismatch against
    `TwoColor::Color(last_painted_by_, buffer_id, k)` to a fresh
    `Summarizer`, then calls `Finish`.  Returns the verdict together with
    the summarizer's final state. -/
def ColorIsRight (last_painted_by buffer_id : Nat) (buffer : List Nat) :
    Bool × Summarizer.State :=
  let r := (List.range buffer.length).foldl
    (scanStep last_painted_by buffer_id buffer) (true, Summarizer.init)
  (r.1, Summarizer.Finish r.2)

/-- Invariant of the scan loop: the verdict is the conjunction of per-position
    matches, and the tracker's lifetime fail count grows by exactly the number
    of mismatching positions processed. -/
lemma scan_foldl (lpb bid : Nat) (buffer : List Nat) :
    ∀ (l : List Nat) (acc : Bool × Summarizer.State),
      ((l.foldl (scanStep lpb bid buffer) acc).1 =
        (acc.1 && l.all (fun k => buffer.getD k 0 == TwoColor.Color lpb bid k))) ∧
      (l.foldl (scanStep lpb bid buffer) acc).2.total_fails =
        acc.2.total_fails +
          (l.filter (fun k => buffer.getD k 0 != TwoColor.Color lpb bid k)).length := by
  intro l
  induction l with
  | nil => intro acc; simp
  | cons k rest ih =>
      intro acc
      by_cases h : buffer.getD k 0 = TwoColor.Color lpb bid k
      · have h' : buffer[k]?.getD 0 = TwoColor.Color lpb bid k := by
          rw [← List.getD_eq_getElem?_getD]
          exact h
        have hstep : scanStep lpb bid buffer acc k = acc := by
          simp [scanStep, h']
        rw [List.foldl_cons, hstep]
        constructor
        · rw [(ih acc).1]
          simp [h']
        · rw [(ih acc).2]
          simp [h']
      · have h' : ¬ buffer[k]?.getD 0 = TwoColor.Color lpb bid k := by
          rw [← List.getD_eq_getElem?_getD]
          exact h
        have hstep : scanStep lpb bid buffer acc k =
            (false, Summarizer.Report acc.2 k (buffer.getD k 0)) := by
          simp [scanStep, h']
        rw [List.foldl_cons, hstep]
        constructor
        · rw [(ih _).1]
          simp [h']
        · rw [(ih _).2, Summarizer.report_total]
          simp [h']
          omega

/-- If every position in `l` carries the expected color, the scan loop leaves
    the accumulator untouched. -/
lemma scan_skip (lpb bid : Nat) (buffer : List Nat) :
    ∀ (l : List Nat) (acc : Bool × Summarizer.State),
      (∀ k ∈ l, buffer.getD k 0 = TwoColor.Color lpb bid k) →
      l.foldl (scanStep lpb bid buffer) acc = acc := by
  intro l
  induction l with
  | nil => intro acc _; rfl
  | cons k rest ih =>
      intro acc h
      rw [List.foldl_cons]
      have hk' : buffer[k]?.getD 0 = TwoColor.Color lpb bid k := by
        rw [← List.getD_eq_getElem?_getD]
        exact h k (by simp)
      have hstep : scanStep lpb bid buffer acc k = acc := by
        simp [scanStep, hk']
      rw [hstep]
      exact ih acc (fun j hj => h j (by simp [hj]))

/-- C6: the Verifier compares the observed byte at every position against
    `Color(last_painted_by, buffer_id, k)` with no early exit, reports each
    mismatch to the tracker (the lifetime fail count equals the number of
    mismatching positions over the whole scan), and returns true iff no
    position mismatched. -/
theorem colorIsRight_scan_law (last_painted_by buffer_id : Nat) (buffer : List Nat) :
    ((ColorIsRight last_painted_by buffer_id buffer).1 = true ↔
      ∀ k, k < buffer.length →
        buffer.getD k 0 = TwoColor.Color last_painted_by buffer_id k) ∧
    (ColorIsRight last_painted_by buffer_id buffer).2.total_fails =
      ((List.range buffer.length).filter
        (fun k => buffer.getD k 0 != TwoColor.Color last_painted_by buffer_id k)).length := by
  have hinv := scan_foldl last_painted_by buffer_id buffer
    (List.range buffer.length) (true, Summarizer.init)
  constructor
  · simp only [ColorIsRight]
    rw [hinv.1]
    simp only [Bool.true_and, List.all_eq_true, List.mem_range, beq_iff_eq]
  · simp only [ColorIsRight]
    rw [Summarizer.finish_total, hinv.2]
    simp [Summarizer.init]

theorem colorIsRight_scan_law_witness :
    (ColorIsRight 0 0 [128, 128, 128]).1 = true ∧
    (ColorIsRight 0 0 [0]).2.total_fails = 1 :=
  ⟨(colorIsRight_scan_law 0 0 [128, 128, 128]).1.mpr (by decide),
   by rw [(colorIsRight_scan_law 0 0 [0]).2]; decide⟩

/-- C9: corrupting exactly one byte, at position `p`, of a correctly painted
    buffer (with any value different from the expected color) makes the scan
    fail and report exactly one corruption range, with start = end = `p`, a
    single in-range failure, and a lifetime total of one failure — no other
    position is reported. -/
theorem tamper_localization (identity buffer_id length p v : Nat)
    (hp : p < length) (hv : v ≠ TwoColor.Color identity buffer_id p) :
    (ColorIsRight identity buffer_id
        ((TwoColor.Paint identity buffer_id length).set p v)).1 = false ∧
    (ColorIsRight identity buffer_id
        ((TwoColor.Paint identity buffer_id length).set p v)).2.summaryLog = [(1, p, p, 1)] ∧
    (ColorIsRight identity buffer_id
        ((TwoColor.Paint identity buffer_id length).set p v)).2.total_fails = 1 ∧
    (ColorIsRight identity buffer_id
        ((TwoColor.Paint identity buffer_id length).set p v)).2.range_count = 1 ∧
    (ColorIsRight identity buffer_id
        ((TwoColor.Paint identity buffer_id length).set p v)).2.range_start = p ∧
    (ColorIsRight identity buffer_id
        ((TwoColor.Paint identity buffer_id length).set p v)).2.range_end = p := by
  set B := (TwoColor.Paint identity buffer_id length).set p v with hB
  have hBlen : B.length = length := by
    rw [hB, List.length_set, TwoColor.paint_length]
  have hgetne : ∀ k, k < length → k ≠ p →
      B.getD k 0 = TwoColor.Color identity buffer_id k := by
    intro k hk hkp
    rw [hB, List.getD_eq_getElem?_getD, List.getElem?_set_ne (by omega),
      ← List.getD_eq_getElem?_getD, TwoColor.paint_getD hk]
  have hgetp : B.getD p 0 = v := by
    rw [hB, List.getD_eq_getElem?_getD,
      List.getElem?_set_self (by rw [TwoColor.paint_length]; omega)]
    rfl
  have hsplit : List.range B.length =
      List.range' 0 p ++ p :: List.range' (p + 1) (length - p - 1) := by
    rw [hBlen, List.range_eq_range']
    have h1 := List.range'_append 0 p (length - p) 1
    simp only [Nat.one_mul, Nat.zero_add] at h1
    rw [show length - p + p = length from by omega] at h1
    rw [← h1]
    congr 1
    set m := length - p - 1 with hm
    rw [show length - p = m + 1 from by omega, List.range'_succ]
  have hskip1 : (List.range' 0 p).foldl (scanStep identity buffer_id B)
      (true, Summarizer.init) = (true, Summarizer.init) := by
    apply scan_skip
    intro k hk
    obtain ⟨hk1, hk2⟩ := List.mem_range'_1.mp hk
    exact hgetne k (by omega) (by omega)
  have hgetp' : B[p]?.getD 0 = v := by
    rw [← List.getD_eq_getElem?_getD]
    exact hgetp
  have hstep : scanStep identity buffer_id B (true, Summarizer.init) p =
      (false, Summarizer.Report Summarizer.init p v) := by
    simp [scanStep, hgetp', hv]
  have hskip2 : (List.range' (p + 1) (length - p - 1)).foldl
      (scanStep identity buffer_id B)
      (false, Summarizer.Report Summarizer.init p v) =
      (false, Summarizer.Report Summarizer.init p v) := by
    apply scan_skip
    intro k hk
    obtain ⟨hk1, hk2⟩ := List.mem_range'_1.mp hk
    exact hgetne k (by omega) (by omega)
  have hfold : (List.range B.length).foldl (scanStep identity buffer_id B)
      (true, Summarizer.init) = (false, Summarizer.Report Summarizer.init p v) := by
    rw [hsplit, List.foldl_append, hskip1, List.foldl_cons, hstep, hskip2]
  have hri := Summarizer.report_inactive Summarizer.init p v rfl
  have htot := Summarizer.report_total Summarizer.init p v
  have hfin := Summarizer.finish_active (Summarizer.Report Summarizer.init p v)
    hri.2.2.2.2.1
  simp only [ColorIsRight, hfold]
  refine ⟨trivial, ?_, ?_, ?_, ?_, ?_⟩
  · rw [hfin.1, hri.1, hri.2.1, hri.2.2.1, hri.2.2.2.1, hri.2.2.2.2.2]
    rfl
  · rw [Summarizer.finish_total, htot]
    rfl
  · rw [hfin.2.1, hri.1]
  · rw [hfin.2.2.1, hri.2.1]
  · rw [hfin.2.2.2.1, hri.2.2.1]

theorem tamper_localization_witness :
    3 < 9 ∧ (0 : Nat) ≠ TwoColor.Color 2 0 3 ∧
    (ColorIsRight 2 0 ((TwoColor.Paint 2 0 9).set 3 0)).1 = false ∧
    (ColorIsRight 2 0 ((TwoColor.Paint 2 0 9).set 3 0)).2.summaryLog = [(1, 3, 3, 1)] ∧
    (ColorIsRight 2 0 ((TwoColor.Paint 2 0 9).set 3 0)).2.total_fails = 1 :=
  have h := tamper_localization 2 0 9 3 0 (by norm_num) (by decide)
  ⟨by norm_num, by decide, h.1, h.2.1, h.2.2.1⟩

end SprayPaint
